import Mathlib

/-!
# Verification of the MPR → DXF converter core

Shallow embedding of `src/app/api/process-mpr/route.js`: the `[001` variable-table
scan (`parseVariables`), the `$E` line extractor (`findLine`), the `<102` circle
extractor (`findCircles`), the DXF writer (`createDxf`) and the `POST` pipeline
(`processMpr`, minus the HTTP glue).

Modelling conventions:
* JavaScript numbers are modelled by `JsNum`: exact rationals plus the two
  infinities.  IEEE-754 rounding is abstracted away (all numeric literals used in
  the development are exactly representable); `NaN` never needs a representation
  because the only operation that can produce it, `parseFloat` on a non-numeric
  string, is modelled as `Option.none`, and the source guards every store with
  `isNaN`.
* JavaScript string primitives (`trim`, `split('\n')`, `startsWith`,
  `toLowerCase`, …) are re-implemented on `List Char`.  Whitespace is the ASCII
  set recognised by `Char.isWhitespace` (space, tab, CR, LF); JavaScript's few
  extra Unicode whitespace code points are outside the documents this format
  carries.
* The three regular expressions of the source are embedded as explicit
  backtracking-free scanners; comments at each definition trace the regex they
  implement.
* The variable object `{}` is modelled as an association list in insertion
  order with last-write-wins lookup, matching plain-object assignment and
  property read (inherited `Object.prototype` members are not modelled: they are
  never numeric, so substituting them and substituting nothing both make
  `parseFloat` fail, with identical effect on every extracted field).
-/

namespace MprToDxf

/-! ## JavaScript string primitives -/

/-- JS regex `\w`: ASCII letters, digits and underscore. -/
def isWordChar (c : Char) : Bool := c.isAlphanum || c == '_'

/-- Strip leading and trailing whitespace from a character list (JS `trim`). -/
def trimList (cs : List Char) : List Char :=
  ((cs.dropWhile Char.isWhitespace).reverse.dropWhile Char.isWhitespace).reverse

/-- JS `String.prototype.trim`. -/
def jsTrim (s : String) : String := String.mk (trimList s.data)

/-- JS `String.prototype.startsWith`. -/
def jsStartsWith (s pre : String) : Bool := pre.data.isPrefixOf s.data

/-- JS `String.prototype.toLowerCase` (ASCII range; keys are `\w`-matched). -/
def jsToLower (s : String) : String := String.mk (s.data.map Char.toLower)

/-- JS `String.prototype.toUpperCase` (ASCII range). -/
def jsToUpper (s : String) : String := String.mk (s.data.map Char.toUpper)

/-- Split a character list at every `'\n'`, keeping empty pieces (JS
`split('\n')` semantics: `"a\n"` gives `["a", ""]`). -/
def splitNl : List Char → List (List Char)
  | [] => [[]]
  | c :: cs =>
    if c = '\n' then [] :: splitNl cs
    else
      match splitNl cs with
      | [] => [[c]]
      | l :: ls => (c :: l) :: ls

/-- JS `content.split('\n')`. -/
def jsSplitLines (content : String) : List String :=
  (splitNl content.data).map String.mk

/-! ## JavaScript numbers and `parseFloat` -/

/-- A JavaScript number as far as this program can observe it: an exact finite
value or one of the infinities (`parseFloat('Infinity')` is `Infinity`). -/
inductive JsNum where
  | fin : ℚ → JsNum
  | posInf : JsNum
  | negInf : JsNum
deriving DecidableEq, Repr

/-- JS `Number.isFinite`. -/
def JsNum.isFinite : JsNum → Bool
  | .fin _ => true
  | _ => false

/-- JS division by `2.0` (used for the circle radius; `±Infinity / 2` keeps the
sign, finite values halve exactly).  Implemented with `mkRat` so that it
evaluates inside the kernel; `halve_fin` below identifies it with `q / 2`. -/
def JsNum.halve : JsNum → JsNum
  | .fin q => .fin (mkRat q.num (q.den * 2))
  | .posInf => .posInf
  | .negInf => .negInf

/-- Value of a most-significant-digit-first decimal digit string. -/
def digitsToNat (ds : List Char) : Nat :=
  ds.foldl (fun n c => 10 * n + (c.toNat - 48)) 0

/-- Exponent part of ECMA-262 `StrDecimalLiteral`: optional sign then at least
one digit; returns the sign (`true` = negative) and the digits. -/
def expSigned : List Char → Option (Bool × List Char)
  | '+' :: r =>
    let d := r.takeWhile Char.isDigit
    if d = [] then none else some (false, d)
  | '-' :: r =>
    let d := r.takeWhile Char.isDigit
    if d = [] then none else some (true, d)
  | r =>
    let d := r.takeWhile Char.isDigit
    if d = [] then none else some (false, d)

/-- `e`/`E` exponent marker followed by a signed digit string; `none` when the
exponent is absent or incomplete (then the literal ends before the `e`). -/
def expDigits : List Char → Option (Bool × List Char)
  | 'e' :: rest => expSigned rest
  | 'E' :: rest => expSigned rest
  | _ => none

/-- Apply an optional minus sign to a natural numerator. -/
def sgn (neg : Bool) (n : Nat) : ℤ := if neg then -(n : ℤ) else (n : ℤ)

/-- ECMA-262 `StrUnsignedDecimalLiteral` as a longest-prefix parse: the keyword
`Infinity`, or digits with an optional fraction and an optional well-formed
exponent; trailing garbage is ignored, no digits at all is a failure. -/
def parseUnsigned (neg : Bool) (cs : List Char) : Option JsNum :=
  if ("Infinity".data).isPrefixOf cs then
    some (if neg then .negInf else .posInf)
  else
    let ip := cs.takeWhile Char.isDigit
    let r1 := cs.dropWhile Char.isDigit
    let fr : List Char × List Char :=
      match r1 with
      | '.' :: rest => (rest.takeWhile Char.isDigit, rest.dropWhile Char.isDigit)
      | _ => ([], r1)
    let fp := fr.1
    if ip = [] ∧ fp = [] then none
    else
      let mant : Nat := digitsToNat (ip ++ fp)
      let m : ℚ :=
        match expDigits fr.2 with
        | some (true, ds) => mkRat (sgn neg mant) (10 ^ fp.length * 10 ^ digitsToNat ds)
        | some (false, ds) => mkRat (sgn neg (mant * 10 ^ digitsToNat ds)) (10 ^ fp.length)
        | none => mkRat (sgn neg mant) (10 ^ fp.length)
      some (.fin m)

/-- JS `parseFloat`: skip leading whitespace, optional sign, then the longest
prefix that is a `StrUnsignedDecimalLiteral`; `none` models the `NaN` result. -/
def parseFloat (s : String) : Option JsNum :=
  match s.data.dropWhile Char.isWhitespace with
  | '+' :: rest => parseUnsigned false rest
  | '-' :: rest => parseUnsigned true rest
  | cs => parseUnsigned false cs

/-! ## The three regular expressions of the source

* `parseVariables`: `/(\w+)\s*=\s*"([^"]+)"/` (unanchored search, leftmost match),
* `findLine`:       `/^(\w+)\s*=\s*(.+)$/`,
* `findCircles`:    `/^(\w+)\s*=\s*"([^"]+)"/`.

A `\w+` group backtracking to a shorter run never helps (the character after a
shortened run is still a word character, which neither `\s*` nor a literal can
match), so each scanner commits to the maximal word run.
-/

/-- Tail of the quoted patterns after the `\w+` key: `\s*=\s*"([^"]+)"`.
Returns the first quoted group, or `none` when the tail does not match. -/
def matchQuotedTail (cs : List Char) : Option String :=
  match cs.dropWhile Char.isWhitespace with
  | '=' :: r1 =>
    match r1.dropWhile Char.isWhitespace with
    | '"' :: r2 =>
      let v := r2.takeWhile (fun c => !(c == '"'))
      if v = [] then none
      else
        match r2.dropWhile (fun c => !(c == '"')) with
        | '"' :: _ => some (String.mk v)
        | _ => none
    | _ => none
  | _ => none

/-- `(\w+)\s*=\s*"([^"]+)"` anchored at the current position: the key is the
maximal nonempty word run, then the quoted tail. -/
def matchAssignAt (cs : List Char) : Option (String × String) :=
  let key := cs.takeWhile isWordChar
  if key = [] then none
  else
    match matchQuotedTail (cs.dropWhile isWordChar) with
    | some v => some (String.mk key, v)
    | none => none

/-- Unanchored leftmost search for `(\w+)\s*=\s*"([^"]+)"` (JS `String.match`
without `^`): try each word-run start from the left; a failed run can be
skipped whole, because starting inside it reaches the same tail.  The `fuel`
argument only makes the recursion structural (each step consumes at least one
character, so `fuel = cs.length` in `findVarAssign` never runs out). -/
def findVarAssignFuel : Nat → List Char → Option (String × String)
  | 0, _ => none
  | _, [] => none
  | fuel + 1, c :: cs =>
    if isWordChar c then
      match matchAssignAt (c :: cs) with
      | some r => some r
      | none => findVarAssignFuel fuel (cs.dropWhile isWordChar)
    else findVarAssignFuel fuel cs

/-- Leftmost match of `(\w+)\s*=\s*"([^"]+)"` in `cs`. -/
def findVarAssign (cs : List Char) : Option (String × String) :=
  findVarAssignFuel cs.length cs

/-- The variable-assignment match of `parseVariables` applied to one line. -/
def varAssign? (s : String) : Option (String × String) := findVarAssign s.data

/-- The circle key/value match `^(\w+)\s*=\s*"([^"]+)"` of `findCircles`. -/
def matchKeyQuoted (s : String) : Option (String × String) := matchAssignAt s.data

/-- Value group of `^(\w+)\s*=\s*(.+)$` once the `=` has been consumed.
`\s*` is greedy and `.` matches neither LF nor CR (both of which `\s` does
match), so: if something non-whitespace remains, the group is the rest with the
leading whitespace stripped, valid only when it is CR/LF-free; if only
whitespace remains, backtracking leaves exactly the last character to `.+`. -/
def valueTail? (rest : List Char) : Option String :=
  let v := rest.dropWhile Char.isWhitespace
  if v = [] then
    match rest.getLast? with
    | some c => if c == '\r' || c == '\n' then none else some (String.mk [c])
    | none => none
  else
    if v.any (fun c => c == '\r' || c == '\n') then none
    else some (String.mk v)

/-- The line key/value match `^(\w+)\s*=\s*(.+)$` of `findLine`: maximal
nonempty word-run key, optional whitespace, `=`, then the `(.+)$` group. -/
def matchKeyValue (s : String) : Option (String × String) :=
  let cs := s.data
  let key := cs.takeWhile isWordChar
  if key = [] then none
  else
    match (cs.dropWhile isWordChar).dropWhile Char.isWhitespace with
    | '=' :: rest =>
      match valueTail? rest with
      | some v => some (String.mk key, v)
      | none => none
    | _ => none

/-- `value.replace(/^"(.+)"$/, '$1')` of `findLine`: strip one pair of
surrounding quotes when the value is entirely quoted with at least one
character between the quotes, none of which may be a line terminator
(`.` matches neither LF nor CR). -/
def stripQuotes (s : String) : String :=
  let cs := s.data
  if 3 ≤ cs.length ∧ cs.head? = some '"' ∧ cs.getLast? = some '"'
      ∧ ((cs.drop 1).dropLast.all fun c => !(c == '\r' || c == '\n')) then
    String.mk ((cs.drop 1).dropLast)
  else s

/-! ## The variable table (`parseVariables`) -/

/-- The `variables` object: assignments in scan order, read back
last-write-wins (plain-object property assignment semantics). -/
abbrev VarTable := List (String × String)

/-- The section-ending test of the `[001` loop: a `[`, `<` or `$` marker, or a
blank line. -/
def varBoundary (t : String) : Bool :=
  jsStartsWith t "[" || jsStartsWith t "<" || jsStartsWith t "$" || t == ""

/-- The `[001` scan loop of `parseVariables`.  The `[001` test comes before the
section-boundary test, exactly as in the source: a line whose trimmed content
starts with `[001` (re-)opens the section and is never a terminator. -/
def parseVariablesAux : List String → Bool → VarTable → VarTable
  | [], _, acc => acc
  | l :: rest, inSec, acc =>
    let t := jsTrim l
    if jsStartsWith t "[001" then parseVariablesAux rest true acc
    else if inSec then
      if varBoundary t then
        acc
      else
        match varAssign? t with
        | some kv => parseVariablesAux rest true (acc ++ [kv])
        | none => parseVariablesAux rest true acc
    else parseVariablesAux rest false acc

/-- `parseVariables(lines)` of the source. -/
def parseVariables (lines : List String) : VarTable :=
  parseVariablesAux lines false []

/-- Property read `variables[value]`: the most recent assignment wins. -/
def lookupVar (vars : VarTable) (k : String) : Option String :=
  vars.foldl (fun r p => if p.1 = k then some p.2 else r) none

/-- The substitution step `if (variables[value] !== undefined) value = variables[value]`. -/
def substitute (vars : VarTable) (v : String) : String :=
  match lookupVar vars v with
  | some w => w
  | none => v

/-! ## Line extraction (`findLine`) -/

/-- A `console.warn('Non-numeric value for KEY:', value)` record:
the upper-cased key and the offending (already substituted) value. -/
abbrev Warn := String × String

/-- The mutable `params = { x: null, y: null, z: null }` object.  Stored values
are never `NaN` (the source only assigns after an `isNaN` guard), so `Option`
with `none` for `null` is exact. -/
structure RawLine where
  x : Option JsNum
  y : Option JsNum
  z : Option JsNum
deriving DecidableEq, Repr

/-- `{ x: null, y: null, z: null }`. -/
def rawLineInit : RawLine := ⟨none, none, none⟩

/-- The window-closing test of the `$E` inner loop: another `$E`, a `[` or `<`
section marker, or a blank line. -/
def lineBoundary (t : String) : Bool :=
  jsStartsWith t "$E" || jsStartsWith t "[" || jsStartsWith t "<" || t == ""

/-- One iteration of the `$E` inner loop on an already trimmed line: match
`^(\w+)\s*=\s*(.+)$`, lower-case the key, trim the value, strip surrounding
quotes, substitute through the variable table, `parseFloat`; on `NaN` leave the
field untouched and record a warning, otherwise store into x/y/z. -/
def applyLineKV (vars : VarTable) (t : String) (p : RawLine) : RawLine × List Warn :=
  match matchKeyValue t with
  | none => (p, [])
  | some kv =>
    let key := jsToLower kv.1
    let v := substitute vars (stripQuotes (jsTrim kv.2))
    match parseFloat v with
    | none => (p, [(jsToUpper key, v)])
    | some n =>
      if key = "x" then ({ p with x := some n }, [])
      else if key = "y" then ({ p with y := some n }, [])
      else if key = "z" then ({ p with z := some n }, [])
      else (p, [])

/-- The `$E` inner loop over the (at most 10) window lines: trim each line,
stop at the first boundary, otherwise apply the key/value step, collecting the
warnings in order. -/
def scanLineWindow (vars : VarTable) : List String → RawLine → RawLine × List Warn
  | [], p => (p, [])
  | l :: rest, p =>
    let t := jsTrim l
    if lineBoundary t then (p, [])
    else
      let st := applyLineKV vars t p
      let out := scanLineWindow vars rest st.1
      (out.1, st.2 ++ out.2)

/-- The `$E` outer loop: find the first line whose trimmed content starts with
`$E`, scan the 10 following lines, and break (later `$E` sections are never
visited); with no `$E` line the params object stays all-`null`. -/
def lineScanGo (vars : VarTable) : List String → RawLine × List Warn
  | [] => (rawLineInit, [])
  | l :: rest =>
    if jsStartsWith (jsTrim l) "$E" then scanLineWindow vars (rest.take 10) rawLineInit
    else lineScanGo vars rest

/-- The whole scanning phase of `findLine` on the split document: build the
variable table, then run the `$E` scan. -/
def computeLineParamsL (lines : List String) : RawLine × List Warn :=
  lineScanGo (parseVariables lines) lines

/-- Scanning phase of `findLine` on the raw content. -/
def computeLineParams (content : String) : RawLine × List Warn :=
  computeLineParamsL (jsSplitLines content)

/-- The validated line: all three coordinates present. -/
structure LineEnt where
  x : JsNum
  y : JsNum
  z : JsNum
deriving DecidableEq, Repr

/-- The error message thrown by `findLine`. -/
def lineErrMsg : String := "One or more parameters (x, y, z) were not found in the file."

instance {ε α : Type} [DecidableEq ε] [DecidableEq α] : DecidableEq (Except ε α) := fun a b =>
  match a, b with
  | .ok x, .ok y => if h : x = y then .isTrue (by rw [h]) else .isFalse (by simp [h])
  | .error e, .error f => if h : e = f then .isTrue (by rw [h]) else .isFalse (by simp [h])
  | .ok _, .error _ => .isFalse (by simp)
  | .error _, .ok _ => .isFalse (by simp)

/-- `findLine(content)`: scan, then
`if (Object.values(params).some(v => v === null || isNaN(v))) throw`.
Stored values are never `NaN`, so the test is exactly a `null` check. -/
def findLine (content : String) : Except String LineEnt :=
  match (computeLineParams content).1 with
  | ⟨some x, some y, some z⟩ => .ok ⟨x, y, z⟩
  | _ => .error lineErrMsg

/-! ## Circle extraction (`findCircles`) -/

/-- The mutable `circle = { xa: null, ya: null, du: null }` object. -/
structure RawCircle where
  xa : Option JsNum
  ya : Option JsNum
  du : Option JsNum
deriving DecidableEq, Repr

/-- `{ xa: null, ya: null, du: null }`. -/
def rawCircleInit : RawCircle := ⟨none, none, none⟩

/-- A validated circle descriptor. -/
structure CircleEnt where
  xa : JsNum
  ya : JsNum
  du : JsNum
deriving DecidableEq, Repr

/-- The window-closing test of the `<102` inner loop: any `<`, `[` or `$`
marker, or a blank line. -/
def circleBoundary (t : String) : Bool :=
  jsStartsWith t "<" || jsStartsWith t "[" || jsStartsWith t "$" || t == ""

/-- One iteration of the `<102` inner loop on a trimmed line: match
`^(\w+)\s*=\s*"([^"]+)"`, lower-case the key, trim the value, substitute,
`parseFloat`; on `NaN` leave the field untouched and record a warning,
otherwise store into xa/ya/du. -/
def applyCircleKV (vars : VarTable) (t : String) (c : RawCircle) : RawCircle × List Warn :=
  match matchKeyQuoted t with
  | none => (c, [])
  | some kv =>
    let key := jsToLower kv.1
    let v := substitute vars (jsTrim kv.2)
    match parseFloat v with
    | none => (c, [(jsToUpper key, v)])
    | some n =>
      if key = "xa" then ({ c with xa := some n }, [])
      else if key = "ya" then ({ c with ya := some n }, [])
      else if key = "du" then ({ c with du := some n }, [])
      else (c, [])

/-- The `<102` inner loop over the (at most 15) window lines. -/
def scanCircleWindow (vars : VarTable) : List String → RawCircle → RawCircle × List Warn
  | [], c => (c, [])
  | l :: rest, c =>
    let t := jsTrim l
    if circleBoundary t then (c, [])
    else
      let st := applyCircleKV vars t c
      let out := scanCircleWindow vars rest st.1
      (out.1, st.2 ++ out.2)

/-- `if (Object.values(circle).every(v => v !== null && !isNaN(v))) circles.push(circle)`:
keep the circle only when all three fields were stored. -/
def mkCircle : RawCircle → Option CircleEnt
  | ⟨some xa, some ya, some du⟩ => some ⟨xa, ya, du⟩
  | _ => none

/-- The `<102` outer loop: every line whose trimmed content starts with `<102`
opens a window over the 15 following lines; the loop itself advances one line
at a time, so scanning continues right after the marker. -/
def circlesGo (vars : VarTable) : List String → List CircleEnt
  | [] => []
  | l :: rest =>
    if jsStartsWith (jsTrim l) "<102" then
      match mkCircle (scanCircleWindow vars (rest.take 15) rawCircleInit).1 with
      | some c => c :: circlesGo vars rest
      | none => circlesGo vars rest
    else circlesGo vars rest

/-- `findCircles` on the split document. -/
def findCirclesL (lines : List String) : List CircleEnt :=
  circlesGo (parseVariables lines) lines

/-- `findCircles(content)` of the source (it rebuilds the variable table
independently, exactly as `findLine` does). -/
def findCircles (content : String) : List CircleEnt :=
  findCirclesL (jsSplitLines content)

/-! ## DXF generation (`createDxf`) and the pipeline -/

/-- The LINE entity block of `createDxf`, with `fmt` standing for JavaScript's
default number-to-string conversion in the template literals. -/
def lineText (fmt : JsNum → String) (p : LineEnt) : String :=
  "0\nLINE\n" ++ "8\n0\n" ++ "10\n0.0\n" ++ "20\n0.0\n"
    ++ "30\n" ++ fmt p.z ++ "\n" ++ "11\n" ++ fmt p.x ++ "\n"
    ++ "21\n" ++ fmt p.y ++ "\n" ++ "31\n" ++ fmt p.z ++ "\n"

/-- One CIRCLE entity block of `createDxf`; `radius = circle.du / 2.0`. -/
def circleText (fmt : JsNum → String) (c : CircleEnt) : String :=
  "0\nCIRCLE\n" ++ "8\n0\n" ++ "10\n" ++ fmt c.xa ++ "\n"
    ++ "20\n" ++ fmt c.ya ++ "\n" ++ "30\n0.0\n" ++ "40\n" ++ fmt c.du.halve ++ "\n"

/-- `createDxf(line, circles)`: header, entities section with the LINE then one
CIRCLE per extracted circle in order (a `for...of` appending to the string),
then `ENDSEC`/`EOF`. -/
def createDxf (fmt : JsNum → String) (p : LineEnt) (circles : List CircleEnt) : String :=
  "0\nSECTION\n2\nHEADER\n0\nENDSEC\n" ++ "0\nSECTION\n2\nENTITIES\n"
    ++ lineText fmt p
    ++ circles.foldl (fun acc c => acc ++ circleText fmt c) ""
    ++ "0\nENDSEC\n" ++ "0\nEOF"

/-- The `POST` handler's conversion core: `findLine`, `findCircles`,
`createDxf`; a thrown line error aborts the whole conversion and no DXF text
is produced (the HTTP glue then reports it as a 500 error). -/
def processMpr (fmt : JsNum → String) (content : String) : Except String String :=
  match findLine content with
  | .error e => .error e
  | .ok line => .ok (createDxf fmt line (findCircles content))

/-! ## Claim-side descriptions

Definitions in this section state what the specification describes (the DXF
skeleton as group-code/value pairs, the marker windows of the circle scan, the
assignments collected from a variable section, boundary-free window scans).
They are compared with the source-side definitions above by the theorems
below. -/

/-- A DXF field value: fixed text or an interpolated number. -/
inductive DxfVal where
  | str : String → DxfVal
  | num : JsNum → DxfVal
deriving DecidableEq, Repr

/-- Text of a DXF value under the number formatter `fmt`. -/
def valText (fmt : JsNum → String) : DxfVal → String
  | .str s => s
  | .num n => fmt n

/-- The group-code/value pairs of one CIRCLE entity: layer `0`, centre
`(xa, ya, 0.0)`, radius `du/2`. -/
def circlePairs (c : CircleEnt) : List (String × DxfVal) :=
  [("0", .str "CIRCLE"), ("8", .str "0"),
   ("10", .num c.xa), ("20", .num c.ya), ("30", .str "0.0"),
   ("40", .num c.du.halve)]

/-- The full DXF skeleton of §4.3 as group-code/value pairs: empty HEADER
section, ENTITIES section with one LINE on layer `0` from `(0.0, 0.0, z)` to
`(x, y, z)` followed by the circles in input order, then ENDSEC and EOF. -/
def dxfPairs (p : LineEnt) (circles : List CircleEnt) : List (String × DxfVal) :=
  [("0", .str "SECTION"), ("2", .str "HEADER"), ("0", .str "ENDSEC"),
   ("0", .str "SECTION"), ("2", .str "ENTITIES"),
   ("0", .str "LINE"), ("8", .str "0"),
   ("10", .str "0.0"), ("20", .str "0.0"), ("30", .num p.z),
   ("11", .num p.x), ("21", .num p.y), ("31", .num p.z)]
    ++ (circles.map circlePairs).flatten
    ++ [("0", .str "ENDSEC"), ("0", .str "EOF")]

/-- Render a pair list with a trailing newline after every value. -/
def pairsTextN (fmt : JsNum → String) : List (String × DxfVal) → String
  | [] => ""
  | p :: ps => p.1 ++ "\n" ++ valText fmt p.2 ++ "\n" ++ pairsTextN fmt ps

/-- Render a pair list as alternating group-code and value lines, newline
separated, with no newline after the last value. -/
def pairsText (fmt : JsNum → String) : List (String × DxfVal) → String
  | [] => ""
  | [p] => p.1 ++ "\n" ++ valText fmt p.2
  | p :: ps => p.1 ++ "\n" ++ valText fmt p.2 ++ "\n" ++ pairsText fmt ps

/-- The lookahead windows of the circle scan: for every line whose trimmed
content starts with `<102`, in document order, the 15 following lines. -/
def markerWindows : List String → List (List String)
  | [] => []
  | l :: rest =>
    if jsStartsWith (jsTrim l) "<102" then rest.take 15 :: markerWindows rest
    else markerWindows rest

/-- The indices (in document order) of the lines whose trimmed content starts
with `<102`. -/
def markerIndices (lines : List String) : List Nat :=
  (List.range lines.length).filter fun i => jsStartsWith (jsTrim (lines.getD i "")) "<102"

/-- The assignments a run of plain section lines contributes to the variable
table, in scan order. -/
def collectAssigns (seg : List String) : VarTable :=
  seg.filterMap fun l => varAssign? (jsTrim l)

/-- The `$E` window scan without its boundary test (used to state that the
boundary truncates the window). -/
def scanLineAll (vars : VarTable) : List String → RawLine → RawLine × List Warn
  | [], p => (p, [])
  | l :: rest, p =>
    let st := applyLineKV vars (jsTrim l) p
    let out := scanLineAll vars rest st.1
    (out.1, st.2 ++ out.2)

/-- The `<102` window scan without its boundary test. -/
def scanCircleAll (vars : VarTable) : List String → RawCircle → RawCircle × List Warn
  | [], c => (c, [])
  | l :: rest, c =>
    let st := applyCircleKV vars (jsTrim l) c
    let out := scanCircleAll vars rest st.1
    (out.1, st.2 ++ out.2)

/-- A list of window lines on which the `$E` window provably closes: it is
already 10 lines long, or it contains a boundary line. -/
def closesLineWindow (mid : List String) : Prop :=
  10 ≤ mid.length ∨ ∃ l ∈ mid, lineBoundary (jsTrim l) = true

/-- Claim-side reading of "the field was set to a finite number". -/
def setToFinite : Option JsNum → Bool
  | some v => v.isFinite
  | none => false

/-! ## Helper lemmas -/

theorem JsNum.halve_fin (q : ℚ) : JsNum.halve (.fin q) = .fin (q / 2) := by
  have h : mkRat q.num (q.den * 2) = q / 2 := by
    rw [Rat.mkRat_eq_div]
    push_cast
    rw [div_mul_eq_div_div, Rat.num_div_den]
  simp [JsNum.halve, h]

theorem dropWhile_eq_self_of_all {p : α → Bool} {l : List α}
    (h : ∀ a ∈ l, p a = false) : l.dropWhile p = l := by
  cases l with
  | nil => rfl
  | cons a l => exact List.dropWhile_cons_of_neg (by simp [h a (by simp)])

theorem trimList_of_nonws {cs : List Char}
    (h : ∀ c ∈ cs, c.isWhitespace = false) : trimList cs = cs := by
  unfold trimList
  rw [dropWhile_eq_self_of_all h, dropWhile_eq_self_of_all (by simpa using h),
    List.reverse_reverse]

theorem jsTrim_of_nonws {s : String}
    (h : ∀ c ∈ s.data, c.isWhitespace = false) : jsTrim s = s := by
  unfold jsTrim
  rw [trimList_of_nonws h]

theorem takeWhile_append_cons {p : α → Bool} {l₁ l₂ : List α} {c : α}
    (h1 : ∀ a ∈ l₁, p a = true) (h2 : p c = false) :
    (l₁ ++ c :: l₂).takeWhile p = l₁ := by
  induction l₁ with
  | nil => simp [List.takeWhile_cons, h2]
  | cons a l₁ ih =>
    rw [List.cons_append, List.takeWhile_cons_of_pos (h1 a (by simp)),
      ih fun a ha => h1 a (by simp [ha])]

theorem dropWhile_append_cons {p : α → Bool} {l₁ l₂ : List α} {c : α}
    (h1 : ∀ a ∈ l₁, p a = true) (h2 : p c = false) :
    (l₁ ++ c :: l₂).dropWhile p = c :: l₂ := by
  induction l₁ with
  | nil => simp [List.dropWhile_cons, h2]
  | cons a l₁ ih =>
    rw [List.cons_append, List.dropWhile_cons_of_pos (h1 a (by simp)),
      ih fun a ha => h1 a (by simp [ha])]

theorem takeWhile_take {p : α → Bool} (l : List α) (n : Nat) :
    (l.take n).takeWhile p = (l.takeWhile p).take n := by
  induction l generalizing n with
  | nil => simp
  | cons a l ih =>
    cases n with
    | zero => simp
    | succ n =>
      rw [List.take_succ_cons, List.takeWhile_cons, List.takeWhile_cons]
      cases p a <;> simp [ih]

theorem takeWhile_append_of_stop {p : α → Bool} {l₁ : List α} (l₂ : List α)
    (h : ∃ x ∈ l₁, p x = false) :
    (l₁ ++ l₂).takeWhile p = l₁.takeWhile p := by
  induction l₁ with
  | nil => simp at h
  | cons a l₁ ih =>
    rw [List.cons_append, List.takeWhile_cons, List.takeWhile_cons]
    rcases h with ⟨x, hx, hpx⟩
    rcases List.mem_cons.mp hx with rfl | hx
    · simp [hpx]
    · cases hpa : p a
      · simp
      · simp [ih ⟨x, hx, hpx⟩]

theorem startsWith_of_startsWith_longer {t : String} {a b : String}
    (hab : a.data <+: b.data) (h : jsStartsWith t b = true) : jsStartsWith t a = true := by
  unfold jsStartsWith at h ⊢
  rw [List.isPrefixOf_iff_prefix] at h ⊢
  exact hab.trans h

theorem pairsText_cons_of_ne_nil (fmt : JsNum → String) (p : String × DxfVal)
    {ps : List (String × DxfVal)} (h : ps ≠ []) :
    pairsText fmt (p :: ps) = p.1 ++ "\n" ++ valText fmt p.2 ++ "\n" ++ pairsText fmt ps := by
  cases ps with
  | nil => exact absurd rfl h
  | cons q qs => rfl

theorem pairsTextN_append (fmt : JsNum → String) (xs ys : List (String × DxfVal)) :
    pairsTextN fmt (xs ++ ys) = pairsTextN fmt xs ++ pairsTextN fmt ys := by
  induction xs with
  | nil => simp [pairsTextN]
  | cons p ps ih =>
    simp only [List.cons_append, pairsTextN, List.append_eq, ih, String.append_assoc]

theorem pairsText_append (fmt : JsNum → String) (xs : List (String × DxfVal))
    {ys : List (String × DxfVal)} (hy : ys ≠ []) :
    pairsText fmt (xs ++ ys) = pairsTextN fmt xs ++ pairsText fmt ys := by
  induction xs with
  | nil => simp [pairsTextN]
  | cons p ps ih =>
    have hne : ps ++ ys ≠ [] := by
      intro hc
      exact hy (List.append_eq_nil.mp hc).2
    rw [List.cons_append, pairsText_cons_of_ne_nil fmt p hne, ih, pairsTextN]
    simp [String.append_assoc]

theorem pairsTextN_circle (fmt : JsNum → String) (c : CircleEnt) :
    pairsTextN fmt (circlePairs c) = circleText fmt c := by
  apply String.ext
  simp [pairsTextN, circlePairs, valText, circleText, String.data_append]

theorem foldl_circleText_eq (fmt : JsNum → String) (cs : List CircleEnt) (s : String) :
    cs.foldl (fun acc c => acc ++ circleText fmt c) s
      = s ++ pairsTextN fmt ((cs.map circlePairs).flatten) := by
  induction cs generalizing s with
  | nil => simp [pairsTextN]
  | cons c cs ih =>
    rw [List.foldl_cons, ih, List.map_cons, List.flatten_cons, pairsTextN_append,
      pairsTextN_circle, String.append_assoc]

theorem scanLineWindow_eq_all (vars : VarTable) (ws : List String) (p : RawLine) :
    scanLineWindow vars ws p
      = scanLineAll vars (ws.takeWhile fun l => !(lineBoundary (jsTrim l))) p := by
  induction ws generalizing p with
  | nil => rfl
  | cons l rest ih =>
    rw [List.takeWhile_cons]
    cases hb : lineBoundary (jsTrim l)
    · simp [scanLineWindow, scanLineAll, hb, ih]
    · simp [scanLineWindow, hb, scanLineAll]

theorem scanCircleWindow_eq_all (vars : VarTable) (ws : List String) (c : RawCircle) :
    scanCircleWindow vars ws c
      = scanCircleAll vars (ws.takeWhile fun l => !(circleBoundary (jsTrim l))) c := by
  induction ws generalizing c with
  | nil => rfl
  | cons l rest ih =>
    rw [List.takeWhile_cons]
    cases hb : circleBoundary (jsTrim l)
    · simp [scanCircleWindow, scanCircleAll, hb, ih]
    · simp [scanCircleWindow, hb, scanCircleAll]

theorem circlesGo_eq_filterMap_windows (vars : VarTable) (lines : List String) :
    circlesGo vars lines
      = (markerWindows lines).filterMap
          (fun w => mkCircle (scanCircleWindow vars w rawCircleInit).1) := by
  induction lines with
  | nil => rfl
  | cons l rest ih =>
    rw [circlesGo, markerWindows]
    cases hm : jsStartsWith (jsTrim l) "<102"
    · simp [hm, ih]
    · simp only [hm, if_pos rfl, List.filterMap_cons]
      cases hc : mkCircle (scanCircleWindow vars (rest.take 15) rawCircleInit).1 <;>
        simp [hc, ih]

theorem markerIndices_cons (l : String) (rest : List String) :
    markerIndices (l :: rest)
      = (if jsStartsWith (jsTrim l) "<102" then [0] else [])
          ++ (markerIndices rest).map (· + 1) := by
  unfold markerIndices
  rw [List.length_cons, List.range_succ_eq_map, List.filter_cons]
  simp only [List.getD_cons_zero, List.getD_cons_succ, List.filter_map, Function.comp_def]
  cases jsStartsWith (jsTrim l) "<102" <;> simp [Nat.succ_eq_add_one]

theorem markerWindows_eq_map (lines : List String) :
    markerWindows lines = (markerIndices lines).map fun i => (lines.drop (i + 1)).take 15 := by
  induction lines with
  | nil => simp [markerWindows, markerIndices]
  | cons l rest ih =>
    rw [markerWindows, markerIndices_cons]
    cases hm : jsStartsWith (jsTrim l) "<102" <;>
      simp [hm, ih, List.map_map, Function.comp_def]

theorem startsWith_bracket001 {t : String} (h : jsStartsWith t "[001" = true) :
    jsStartsWith t "[" = true :=
  startsWith_of_startsWith_longer ⟨['0', '0', '1'], rfl⟩ h

theorem parseVariablesAux_skip_pre (pre rest : List String) (acc : VarTable)
    (h : ∀ l ∈ pre, jsStartsWith (jsTrim l) "[001" = false) :
    parseVariablesAux (pre ++ rest) false acc = parseVariablesAux rest false acc := by
  induction pre with
  | nil => rfl
  | cons l pre ih =>
    rw [List.cons_append, parseVariablesAux]
    simp only [h l (by simp), Bool.false_eq_true, if_neg, if_false]
    exact ih fun m hm => h m (by simp [hm])

theorem parseVariablesAux_acc (lines : List String) (acc : VarTable) :
    parseVariablesAux lines true acc = acc ++ parseVariablesAux lines true [] := by
  induction lines generalizing acc with
  | nil => simp [parseVariablesAux]
  | cons l rest ih =>
    rw [parseVariablesAux, parseVariablesAux]
    cases h1 : jsStartsWith (jsTrim l) "[001"
    · cases h2 : varBoundary (jsTrim l)
      · cases h3 : varAssign? (jsTrim l) with
        | none => simpa [h1, h2, h3] using ih acc
        | some kv =>
          simp only [h1, h2, h3, Bool.false_eq_true, if_false, if_neg]
          rw [ih (acc ++ [kv]), ih ([] ++ [kv])]
          simp
      · simp [h1, h2]
    · simpa [h1] using ih acc

theorem parseVariablesAux_collect (seg rest : List String) (acc : VarTable)
    (h : ∀ l ∈ seg, varBoundary (jsTrim l) = false) :
    parseVariablesAux (seg ++ rest) true acc
      = parseVariablesAux rest true (acc ++ collectAssigns seg) := by
  induction seg generalizing acc with
  | nil => simp [collectAssigns]
  | cons l seg ih =>
    have hb : varBoundary (jsTrim l) = false := h l (by simp)
    have h001 : jsStartsWith (jsTrim l) "[001" = false := by
      cases hx : jsStartsWith (jsTrim l) "[001"
      · rfl
      · rw [varBoundary, startsWith_bracket001 hx] at hb
        simp at hb
    rw [List.cons_append, parseVariablesAux]
    simp only [h001, hb, Bool.false_eq_true, if_false, if_neg, if_true]
    cases h3 : varAssign? (jsTrim l) with
    | none =>
      show parseVariablesAux (seg ++ rest) true acc = _
      rw [ih acc fun m hm => h m (by simp [hm])]
      simp [collectAssigns, h3]
    | some kv =>
      show parseVariablesAux (seg ++ rest) true (acc ++ [kv]) = _
      rw [ih (acc ++ [kv]) fun m hm => h m (by simp [hm])]
      simp [collectAssigns, h3]

theorem parseVariablesAux_stop (b : String) (seg2 : List String) (acc : VarTable)
    (hb : varBoundary (jsTrim b) = true) (h001 : jsStartsWith (jsTrim b) "[001" = false) :
    parseVariablesAux (b :: seg2) true acc = acc := by
  rw [parseVariablesAux]
  simp [h001, hb]

theorem lookupVar_eq_getLast (vars : VarTable) (k : String) :
    lookupVar vars k = ((vars.filter fun p => p.1 == k).getLast?).map Prod.snd := by
  induction vars using List.reverseRecOn with
  | nil => rfl
  | append_singleton vs p ih =>
    rw [lookupVar, List.foldl_append, List.filter_append]
    rw [lookupVar] at ih
    by_cases hk : p.1 = k
    · simp [List.filter_cons, hk]
    · simp only [List.foldl_cons, List.foldl_nil, if_neg hk, ih, List.filter_cons]
      simp [hk]

theorem lookupVar_none_iff (vars : VarTable) (k : String) :
    lookupVar vars k = none ↔ ∀ v, (k, v) ∉ vars := by
  rw [lookupVar_eq_getLast]
  simp only [Option.map_eq_none', List.getLast?_eq_none_iff, List.filter_eq_nil_iff]
  constructor
  · intro h v hv
    have := h _ hv
    simp at this
  · intro h p hp hb
    rw [beq_iff_eq] at hb
    exact h p.2 (by rwa [← hb, Prod.mk.eta])

theorem lookupVar_some_mem (vars : VarTable) (k : String) (v : String)
    (h : lookupVar vars k = some v) : (k, v) ∈ vars := by
  rw [lookupVar_eq_getLast] at h
  rcases Option.map_eq_some'.mp h with ⟨q, hq, hv⟩
  have hmem := List.mem_of_getLast?_eq_some hq
  have hkey := List.of_mem_filter hmem
  have hq1 : q.1 = k := by simpa using hkey
  have hqv : q = (k, v) := by
    cases q
    simp_all
  rw [← hqv]
  exact List.mem_of_mem_filter hmem

/-! ## The claims -/

/-- **C5**: for every line descriptor and circle sequence, `createDxf` renders
exactly the fixed DXF skeleton `dxfPairs`: empty HEADER section, then an
ENTITIES section holding one LINE on layer 0 from (0.0, 0.0, z) to (x, y, z)
followed by one CIRCLE per circle in input order on layer 0 centred at
(xa, ya, 0.0) with radius `du.halve` (never a literal radius; `halve` is
division by two, and `halve (fin 40) = fin 20`), then ENDSEC and EOF; only the
group codes 0, 2, 8, 10, 11, 20, 21, 30, 31, 40 occur, and rendering is a
total function, so it never fails. -/
theorem claim5_createDxf_skeleton (fmt : JsNum → String) (p : LineEnt)
    (circles : List CircleEnt) :
    createDxf fmt p circles = pairsText fmt (dxfPairs p circles)
    ∧ (∀ pr ∈ dxfPairs p circles,
        pr.1 ∈ (["0", "2", "8", "10", "11", "20", "21", "30", "31", "40"] : List String))
    ∧ (∀ q : ℚ, JsNum.halve (.fin q) = .fin (q / 2))
    ∧ JsNum.halve (.fin 40) = .fin 20 := by
  refine ⟨?_, ?_, JsNum.halve_fin, by decide⟩
  · rw [createDxf, foldl_circleText_eq, dxfPairs,
      pairsText_append fmt _ (by simp), pairsTextN_append]
    apply String.ext
    simp [lineText, pairsTextN, pairsText, valText, String.data_append, String.append_assoc]
  · intro pr hpr
    rw [dxfPairs] at hpr
    rcases List.mem_append.mp hpr with hpr | hpr
    · rcases List.mem_append.mp hpr with hpr | hpr
      · fin_cases hpr <;> simp
      · rcases List.mem_flatten.mp hpr with ⟨ps, hps, hmem⟩
        rcases List.mem_map.mp hps with ⟨c, -, rfl⟩
        fin_cases hmem <;> simp
    · fin_cases hpr <;> simp

/-- Witness for C5 at a concrete line, circle list and formatter, discharging
the membership hypothesis of the group-code conjunct at the radius pair. -/
theorem claim5_witness :
    createDxf (fun _ => "1") ⟨.fin 1, .fin 2, .fin 3⟩ [⟨.fin 4, .fin 5, .fin 40⟩]
        = pairsText (fun _ => "1") (dxfPairs ⟨.fin 1, .fin 2, .fin 3⟩ [⟨.fin 4, .fin 5, .fin 40⟩])
    ∧ ("40", DxfVal.num (JsNum.halve (.fin 40)))
        ∈ dxfPairs ⟨.fin 1, .fin 2, .fin 3⟩ [⟨.fin 4, .fin 5, .fin 40⟩]
    ∧ ("40" : String) ∈ (["0", "2", "8", "10", "11", "20", "21", "30", "31", "40"] : List String) :=
  ⟨(claim5_createDxf_skeleton (fun _ => "1") ⟨.fin 1, .fin 2, .fin 3⟩
      [⟨.fin 4, .fin 5, .fin 40⟩]).1,
   by decide,
   (claim5_createDxf_skeleton (fun _ => "1") ⟨.fin 1, .fin 2, .fin 3⟩
      [⟨.fin 4, .fin 5, .fin 40⟩]).2.1 ("40", DxfVal.num (JsNum.halve (.fin 40)))
      (by decide)⟩

/-- **C1, counterexample**: the claim says `findLine` errs iff some of x, y, z
is not set to a *finite* number when the window closes.  On
`"$E\nX=Infinity\nY=1\nZ=2"` the source's `parseFloat('Infinity')` yields
`Infinity`, which passes the `isNaN` store guard and the final
`null`/`NaN` validation, so `findLine` succeeds although x is not finite —
the stated equivalence is false at this input. -/
theorem claim1_counterexample :
    ¬ (((findLine "$E\nX=Infinity\nY=1\nZ=2").isOk = false) ↔
        ¬ (setToFinite (computeLineParams "$E\nX=Infinity\nY=1\nZ=2").1.x = true
            ∧ setToFinite (computeLineParams "$E\nX=Infinity\nY=1\nZ=2").1.y = true
            ∧ setToFinite (computeLineParams "$E\nX=Infinity\nY=1\nZ=2").1.z = true)) := by
  decide

/-- **C1** (amended: "finite number" weakened to "numeric value" — `parseFloat`
can also produce `Infinity`, which the source's `isNaN`-based checks accept;
only a missing or non-numeric field counts as unset): `findLine` raises its
conversion error if and only if at least one of x, y, z is still unset when
the first `$E` lookahead window closes (in particular when no `$E` section
exists), and on that error the whole conversion aborts with the same message
and no DXF text is produced. -/
theorem claim1_line_error_iff_param_unset (fmt : JsNum → String) (content : String) :
    ((findLine content).isOk = false ↔
      ((computeLineParams content).1.x = none ∨ (computeLineParams content).1.y = none
        ∨ (computeLineParams content).1.z = none))
    ∧ ((findLine content).isOk = false → processMpr fmt content = Except.error lineErrMsg) := by
  have hfind : findLine content
      = (match (computeLineParams content).1 with
          | ⟨some x, some y, some z⟩ => Except.ok ⟨x, y, z⟩
          | _ => Except.error lineErrMsg) := rfl
  rcases hp : (computeLineParams content).1 with ⟨x, y, z⟩
  rw [hp] at hfind
  constructor
  · rw [hfind]
    rcases x with - | x <;> rcases y with - | y <;> rcases z with - | z <;>
      simp [Except.isOk, Except.toBool]
  · intro herr
    rw [processMpr, hfind]
    rw [hfind] at herr
    rcases x with - | x <;> rcases y with - | y <;> rcases z with - | z <;>
      simp_all [Except.isOk, Except.toBool]

/-- Witness for C1 at a document whose `$E` window never sets z: `findLine`
errs and the pipeline aborts with the line error. -/
theorem claim1_witness :
    (findLine "$E\nX=1\nY=2").isOk = false
    ∧ processMpr (fun _ => "") "$E\nX=1\nY=2" = Except.error lineErrMsg :=
  ⟨by decide, (claim1_line_error_iff_param_unset (fun _ => "") "$E\nX=1\nY=2").2 (by decide)⟩

/-- **C2, counterexample**: the claim admits a circle only when all three
fields parse as *finite* numbers, but on
`"<102\nXA=\"1\"\nYA=\"2\"\nDU=\"Infinity\""` the source accepts
`DU="Infinity"` (`parseFloat` yields `Infinity`, which is not `NaN`) and
appends a circle whose diameter is not finite. -/
theorem claim2_counterexample :
    findCircles "<102\nXA=\"1\"\nYA=\"2\"\nDU=\"Infinity\""
        = [⟨.fin 1, .fin 2, .posInf⟩]
    ∧ JsNum.isFinite .posInf = false
    ∧ ¬ (∀ c ∈ findCircles "<102\nXA=\"1\"\nYA=\"2\"\nDU=\"Infinity\"",
          c.xa.isFinite = true ∧ c.ya.isFinite = true ∧ c.du.isFinite = true) := by
  refine ⟨by decide, by decide, ?_⟩
  intro h
  have := h ⟨.fin 1, .fin 2, .posInf⟩ (by decide)
  simp [JsNum.isFinite] at this

/-- **C2** (amended: "finite numbers" weakened to "numbers" — `Infinity` also
passes the source's `isNaN` checks): for every document, each `<102` marker
contributes a circle exactly when its window scan set all three of xa, ya, du;
a partially specified circle is dropped silently, the conversion never fails
because of circles (whenever the line extractor succeeds the pipeline
succeeds), and an empty circle list is a valid outcome. -/
theorem claim2_circle_iff_complete (lines : List String) (fmt : JsNum → String)
    (content : String) :
    findCirclesL lines
      = (markerWindows lines).filterMap
          (fun w => mkCircle (scanCircleWindow (parseVariables lines) w rawCircleInit).1)
    ∧ (∀ c : RawCircle, (mkCircle c).isSome = true ↔ (c.xa ≠ none ∧ c.ya ≠ none ∧ c.du ≠ none))
    ∧ ((findLine content).isOk = true → (processMpr fmt content).isOk = true) := by
  refine ⟨circlesGo_eq_filterMap_windows _ _, ?_, ?_⟩
  · intro c
    rcases c with ⟨- | xa, - | ya, - | du⟩ <;> simp [mkCircle]
  · intro hok
    cases hf : findLine content with
    | error e => rw [hf] at hok; simp [Except.isOk, Except.toBool] at hok
    | ok line => simp [processMpr, hf, Except.isOk, Except.toBool]

/-- Witness for C2 on a document with a line and one complete circle: the line
extractor succeeds, hence the pipeline succeeds. -/
theorem claim2_witness :
    (findLine "$E\nX=1\nY=2\nZ=3\n\n<102\nXA=\"1\"\nYA=\"2\"\nDU=\"40\"").isOk = true
    ∧ (processMpr (fun _ => "")
        "$E\nX=1\nY=2\nZ=3\n\n<102\nXA=\"1\"\nYA=\"2\"\nDU=\"40\"").isOk = true :=
  ⟨by decide,
   (claim2_circle_iff_complete [] (fun _ => "")
      "$E\nX=1\nY=2\nZ=3\n\n<102\nXA=\"1\"\nYA=\"2\"\nDU=\"40\"").2.2 (by decide)⟩

/-- **C3, counterexample**: a syntactically valid KEY=VALUE pair outside the
window can affect the extracted x after all.  In
`"$E\nX=FOO\nY=1\nZ=2\n\n[001\nFOO=\"9\""` the pair `FOO="9"` sits after the
blank line that closes the `$E` window (and past it), yet the `[001` scan
collects it into the variable table and the in-window value `X=FOO` resolves
through it: with the pair present extraction succeeds with x = 9, with the
pair removed the very same window makes the conversion fail. -/
theorem claim3_counterexample :
    (matchKeyValue (jsTrim "FOO=\"9\"")).isSome = true
    ∧ findLine "$E\nX=FOO\nY=1\nZ=2\n\n[001\nFOO=\"9\""
        = Except.ok ⟨.fin 9, .fin 1, .fin 2⟩
    ∧ (findLine "$E\nX=FOO\nY=1\nZ=2\n\n[001").isOk = false := by
  refine ⟨by decide, by decide, by decide⟩

/-- **C3** (amended: invariance holds with the variable table fixed — text
outside the window can still reach the extracted values through the `[001`
variable table, as the counterexample shows): the `$E` scan consults only the
first `$E` marker (no line of `pre` starts with `$E`) and, within it, only the
lookahead window of at most 10 lines truncated at the first blank/`$E`/`[`/`<`
line: once the window provably closes inside `mid`, everything after `mid` is
irrelevant — replacing `post` by any `post2` leaves the scan result (values
and warnings) unchanged. -/
theorem claim3_window_locality (vars : VarTable) (pre : List String) (marker : String)
    (mid post post2 : List String)
    (hpre : ∀ l ∈ pre, jsStartsWith (jsTrim l) "$E" = false)
    (hm : jsStartsWith (jsTrim marker) "$E" = true)
    (hclosed : closesLineWindow mid) :
    lineScanGo vars (pre ++ marker :: (mid ++ post))
      = lineScanGo vars (pre ++ marker :: (mid ++ post2)) := by
  induction pre with
  | cons l pre ih =>
    rw [List.cons_append, List.cons_append]
    simp only [lineScanGo, hpre l (by simp), Bool.false_eq_true, if_false]
    exact ih fun m hm2 => hpre m (by simp [hm2])
  | nil =>
    simp only [List.nil_append, lineScanGo, hm, if_true]
    rcases hclosed with hlen | ⟨b, hb, hbt⟩
    · rw [List.take_append_eq_append_take, List.take_append_eq_append_take]
      have h0 : 10 - mid.length = 0 := Nat.sub_eq_zero_of_le hlen
      simp [h0]
    · rw [scanLineWindow_eq_all, scanLineWindow_eq_all, takeWhile_take, takeWhile_take,
        takeWhile_append_of_stop post ⟨b, hb, by simp [hbt]⟩,
        takeWhile_append_of_stop post2 ⟨b, hb, by simp [hbt]⟩]

/-- Witness for C3: first `$E` after one non-marker line, window closed by a
blank line, an `X=9` pair beyond it present or absent — same scan result. -/
theorem claim3_witness :
    closesLineWindow [""]
    ∧ lineScanGo [] (["a"] ++ "$E" :: ([""] ++ ["X=9"]))
        = lineScanGo [] (["a"] ++ "$E" :: ([""] ++ [])) :=
  ⟨Or.inr ⟨"", by decide, by decide⟩,
   claim3_window_locality [] ["a"] "$E" [""] ["X=9"] [] (by decide) (by decide)
     (Or.inr ⟨"", by decide, by decide⟩)⟩

/-- **C4**: circle extraction processes *every* line whose trimmed content
starts with `<102` (their indices, in increasing document order, are exactly
`markerIndices`), each with a lookahead window of at most the 15 following
lines (`take 15`, which end-of-document cuts short) truncated at the first
blank line or line starting with `<`, `[` or `$` (the `takeWhile` in the third
conjunct); the resulting circles appear in marker order. -/
theorem claim4_all_markers_in_order (lines : List String) :
    findCirclesL lines
      = (markerIndices lines).filterMap
          (fun i => mkCircle
            (scanCircleWindow (parseVariables lines) ((lines.drop (i + 1)).take 15)
              rawCircleInit).1)
    ∧ List.Sorted (· < ·) (markerIndices lines)
    ∧ (∀ (vars : VarTable) (ws : List String) (c : RawCircle),
        scanCircleWindow vars ws c
          = scanCircleAll vars (ws.takeWhile fun l => !(circleBoundary (jsTrim l))) c) := by
  refine ⟨?_, ?_, scanCircleWindow_eq_all⟩
  · rw [findCirclesL, circlesGo_eq_filterMap_windows, markerWindows_eq_map, List.filterMap_map]
    rfl
  · exact (List.sorted_lt_range lines.length).filter _

/-- **C6**: resolution substitutes exactly on a key match of the table —
`lookupVar` is `none` iff no entry carries the token as key and then the token
is returned unchanged, and when it is `some v` that binding is in the table
and substitution returns `v`.  In particular a document defining `FOO="12.5"`
whose `$E` section says `X=FOO` extracts x = 12.5. -/
theorem claim6_resolve_exact_match (vars : VarTable) (tok : String) :
    (lookupVar vars tok = none ↔ ∀ v, (tok, v) ∉ vars)
    ∧ (∀ v, lookupVar vars tok = some v → (tok, v) ∈ vars ∧ substitute vars tok = v)
    ∧ (lookupVar vars tok = none → substitute vars tok = tok)
    ∧ findLine "[001\nFOO=\"12.5\"\n\n$E\nX=FOO\nY=1\nZ=2"
        = Except.ok ⟨.fin (25 / 2), .fin 1, .fin 2⟩ := by
  refine ⟨lookupVar_none_iff vars tok, ?_, ?_, ?_⟩
  · intro v hv
    exact ⟨lookupVar_some_mem vars tok v hv, by rw [substitute, hv]⟩
  · intro h
    rw [substitute, h]
  · have h : findLine "[001\nFOO=\"12.5\"\n\n$E\nX=FOO\nY=1\nZ=2"
        = Except.ok ⟨.fin (mkRat 25 2), .fin 1, .fin 2⟩ := by decide
    rw [h]
    have h2 : mkRat 25 2 = (25 / 2 : ℚ) := by
      rw [Rat.mkRat_eq_div]
      norm_num
    rw [h2]

/-- Witness for C6: a one-entry table, looked up at its own key. -/
theorem claim6_witness :
    lookupVar [("FOO", "12.5")] "FOO" = some "12.5"
    ∧ ("FOO", "12.5") ∈ ([("FOO", "12.5")] : VarTable)
    ∧ substitute [("FOO", "12.5")] "FOO" = "12.5" := by
  refine ⟨by decide, ?_, ?_⟩
  · exact ((claim6_resolve_exact_match [("FOO", "12.5")] "FOO").2.1 "12.5" (by decide)).1
  · exact ((claim6_resolve_exact_match [("FOO", "12.5")] "FOO").2.1 "12.5" (by decide)).2

/-- **C7**: inside the `$E` window, a recognised line whose (substituted)
value does not parse as a number leaves the params object exactly as it was,
records one warning (the upper-cased key with the offending value) and
scanning continues with the rest of the window; and a later occurrence of a
key inside the window overwrites whatever an earlier occurrence stored. -/
theorem claim7_malformed_skipped_later_overwrites (vars : VarTable) :
    (∀ (l : String) (rest : List String) (p : RawLine) (k rawv : String),
        lineBoundary (jsTrim l) = false →
        matchKeyValue (jsTrim l) = some (k, rawv) →
        parseFloat (substitute vars (stripQuotes (jsTrim rawv))) = none →
        (scanLineWindow vars (l :: rest) p).1 = (scanLineWindow vars rest p).1
          ∧ (scanLineWindow vars (l :: rest) p).2
              = (jsToUpper (jsToLower k), substitute vars (stripQuotes (jsTrim rawv)))
                  :: (scanLineWindow vars rest p).2)
    ∧ (∀ (w : List String) (l : String) (p : RawLine) (k rawv : String) (n : JsNum),
        (∀ m ∈ w, lineBoundary (jsTrim m) = false) →
        lineBoundary (jsTrim l) = false →
        matchKeyValue (jsTrim l) = some (k, rawv) →
        parseFloat (substitute vars (stripQuotes (jsTrim rawv))) = some n →
        (jsToLower k = "x" → (scanLineWindow vars (w ++ [l]) p).1.x = some n)
          ∧ (jsToLower k = "y" → (scanLineWindow vars (w ++ [l]) p).1.y = some n)
          ∧ (jsToLower k = "z" → (scanLineWindow vars (w ++ [l]) p).1.z = some n)) := by
  constructor
  · intro l rest p k rawv hb hm hpf
    simp [scanLineWindow, hb, applyLineKV, hm, hpf]
  · intro w l p k rawv n hw hb hm hpf
    induction w generalizing p with
    | nil =>
      simp only [List.nil_append, scanLineWindow, hb, Bool.false_eq_true, if_false,
        applyLineKV, hm, hpf]
      refine ⟨?_, ?_, ?_⟩ <;> intro hk <;> simp [hk, scanLineWindow]
    | cons m w ih =>
      have hbm := hw m (by simp)
      simp only [List.cons_append, scanLineWindow, hbm, Bool.false_eq_true, if_false]
      exact ih _ fun m2 hm2 => hw m2 (by simp [hm2])

/-- Witness for C7: `X=a` is skipped with a warning, and in the window
`X=1`, `X=2` the later pair wins: x ends as 2. -/
theorem claim7_witness :
    ((scanLineWindow [] ["X=a"] rawLineInit).1 = (scanLineWindow [] [] rawLineInit).1
      ∧ (scanLineWindow [] ["X=a"] rawLineInit).2
          = (jsToUpper (jsToLower "X"), substitute [] (stripQuotes (jsTrim "a")))
              :: (scanLineWindow [] [] rawLineInit).2)
    ∧ (scanLineWindow [] (["X=1"] ++ ["X=2"]) rawLineInit).1.x = some (.fin (mkRat 2 1)) :=
  ⟨(claim7_malformed_skipped_later_overwrites []).1 "X=a" [] rawLineInit "X" "a"
      (by decide) (by decide) (by decide),
   ((claim7_malformed_skipped_later_overwrites []).2 ["X=1"] "X=2" rawLineInit "X" "2"
      (.fin (mkRat 2 1)) (by decide) (by decide) (by decide) (by decide)).1 (by decide)⟩

/-- **C8**: the built variable table resolves a name to the value of the
*last* assignment in scan order (property lookup over the collected
assignments is last-write-wins), and when no line starts the `[001` section
the table is empty — `parseVariables` is total, so no error is raised. -/
theorem claim8_last_write_wins_empty_table (lines : List String) (name : String) :
    lookupVar (parseVariables lines) name
      = (((parseVariables lines).filter fun p => p.1 == name).getLast?).map Prod.snd
    ∧ ((∀ l ∈ lines, jsStartsWith (jsTrim l) "[001" = false) → parseVariables lines = []) := by
  refine ⟨lookupVar_eq_getLast _ _, ?_⟩
  intro h
  have hskip : parseVariablesAux (lines ++ []) false [] = parseVariablesAux [] false [] :=
    parseVariablesAux_skip_pre lines [] [] h
  rw [List.append_nil] at hskip
  exact hskip

/-- Witness for C8: a document with an assignment-shaped line but no `[001`
header yields the empty table. -/
theorem claim8_witness :
    (∀ l ∈ (["X=\"1\""] : List String), jsStartsWith (jsTrim l) "[001" = false)
    ∧ parseVariables ["X=\"1\""] = [] :=
  ⟨by decide, (claim8_last_write_wins_empty_table ["X=\"1\""] "X").2 (by decide)⟩

/-- **C10, counterexample**: the claim says any line beginning with `[` —
including a second `[001` header — terminates variable scanning, so later
`[001` assignments never contribute.  But the source tests `startsWith('[001')`
*before* the boundary test, so on
`["[001", "A=\"1\"", "[001", "B=\"2\""]` scanning continues through the second
header and `B` is in the table. -/
theorem claim10_counterexample :
    parseVariables ["[001", "A=\"1\"", "[001", "B=\"2\""] = [("A", "1"), ("B", "2")]
    ∧ lookupVar (parseVariables ["[001", "A=\"1\"", "[001", "B=\"2\""]) "B" = some "2" :=
  ⟨by decide, by decide⟩

/-- **C10** (amended: a terminator is a blank line or a line beginning with
`[`, `<` or `$` whose trimmed content does *not* start with `[001`; a line
starting with `[001` — in particular a second `[001` header — never
terminates: it re-opens the section and the assignments that follow it do
contribute, appended after those of the first section): once the first `[001`
header is found (nothing before it starts with `[001`), scanning collects the
plain assignment lines; at a true terminator it stops for good, and nothing
after it contributes. -/
theorem claim10_header_reopens (pre seg1 seg2 : List String) (h1 h2 b : String)
    (hpre : ∀ l ∈ pre, jsStartsWith (jsTrim l) "[001" = false)
    (hh1 : jsStartsWith (jsTrim h1) "[001" = true)
    (hseg1 : ∀ l ∈ seg1, varBoundary (jsTrim l) = false) :
    (jsStartsWith (jsTrim h2) "[001" = true →
      parseVariables (pre ++ h1 :: (seg1 ++ h2 :: seg2))
        = collectAssigns seg1 ++ parseVariables (h2 :: seg2))
    ∧ (varBoundary (jsTrim b) = true → jsStartsWith (jsTrim b) "[001" = false →
      parseVariables (pre ++ h1 :: (seg1 ++ b :: seg2)) = collectAssigns seg1) := by
  constructor
  · intro hh2
    rw [parseVariables, parseVariablesAux_skip_pre pre _ [] hpre]
    simp only [parseVariablesAux, hh1, if_true]
    rw [parseVariablesAux_collect seg1 _ [] hseg1, List.nil_append, parseVariablesAux_acc]
    congr 1
    rw [parseVariables]
    simp only [parseVariablesAux, hh2, if_true]
  · intro hbv hb001
    rw [parseVariables, parseVariablesAux_skip_pre pre _ [] hpre]
    simp only [parseVariablesAux, hh1, if_true]
    rw [parseVariablesAux_collect seg1 _ [] hseg1, List.nil_append]
    exact parseVariablesAux_stop b seg2 _ hbv hb001

/-- Witness for C10 at the counterexample document: the second `[001` header
re-opens the section and `B="2"` is appended after the first section's
assignments. -/
theorem claim10_witness :
    jsStartsWith (jsTrim "[001") "[001" = true
    ∧ parseVariables ([] ++ "[001" :: (["A=\"1\""] ++ "[001" :: ["B=\"2\""]))
        = collectAssigns ["A=\"1\""] ++ parseVariables ("[001" :: ["B=\"2\""]) :=
  ⟨by decide,
   (claim10_header_reopens [] ["A=\"1\""] ["B=\"2\""] "[001" "[001" ""
      (by decide) (by decide) (by decide)).1 (by decide)⟩

/-- **C9**: in line extraction the surrounding quotes are stripped *before*
the variable-table lookup: for any word-character key and any nonempty
quote-free, whitespace-free token, the window step on `KEY="tok"` is
identical to the step on `KEY=tok` — both resolve the bare token through the
table (strip-then-substitute).  And substitution is applied at most once: with
the chain table `A="B"`, `B="5"`, the window value `X=A` resolves to `"B"`,
which is *not* looked up again, so x stays unset and the conversion fails. -/
theorem claim9_strip_then_substitute_once (vars : VarTable) (key tok : String) (p : RawLine)
    (hkey1 : key.data ≠ []) (hkey2 : ∀ c ∈ key.data, isWordChar c = true)
    (htok1 : tok.data ≠ [])
    (htok2 : ∀ c ∈ tok.data, c.isWhitespace = false ∧ c ≠ '"') :
    applyLineKV vars (key ++ "=\"" ++ tok ++ "\"") p = applyLineKV vars (key ++ "=" ++ tok) p
    ∧ (findLine "[001\nA=\"B\"\nB=\"5\"\n\n$E\nX=A\nY=1\nZ=2").isOk = false := by
  have hnws : ∀ c ∈ tok.data, c.isWhitespace = false := fun c hc => (htok2 c hc).1
  have hcrlf : ∀ c ∈ tok.data, (c == '\r' || c == '\n') = false := by
    intro c hc
    have hws := hnws c hc
    have h1 : ¬(c = '\r') := fun h => by simp [h] at hws
    have h2 : ¬(c = '\n') := fun h => by simp [h] at hws
    simp [h1, h2]
  refine ⟨?_, by decide⟩
  have hqdata : (key ++ "=\"" ++ tok ++ "\"").data
      = key.data ++ '=' :: ('"' :: (tok.data ++ ['"'])) := by
    simp [String.data_append]
  have hudata : (key ++ "=" ++ tok).data = key.data ++ '=' :: tok.data := by
    simp [String.data_append]
  have hanyq : (('"' :: (tok.data ++ ['"'])).any fun c => c == '\r' || c == '\n')
      = false := by
    rw [List.any_eq_false]
    intro c hc
    rcases List.mem_cons.mp hc with rfl | hc
    · decide
    rcases List.mem_append.mp hc with hc | hc
    · simp [hcrlf c hc]
    · simp at hc
      simp [hc]
  have hanyu : (tok.data.any fun c => c == '\r' || c == '\n') = false := by
    rw [List.any_eq_false]
    intro c hc
    simp [hcrlf c hc]
  have hvtq : valueTail? ('"' :: (tok.data ++ ['"']))
      = some (String.mk ('"' :: (tok.data ++ ['"']))) := by
    rw [valueTail?, List.dropWhile_cons_of_neg (by decide)]
    rw [if_neg (by simp), if_neg (by simp [hanyq])]
  have hvtu : valueTail? tok.data = some tok := by
    rw [valueTail?, dropWhile_eq_self_of_all hnws]
    rw [if_neg htok1, if_neg (by simp [hanyu])]
  have hmq : matchKeyValue (key ++ "=\"" ++ tok ++ "\"")
      = some (key, String.mk ('"' :: (tok.data ++ ['"']))) := by
    rw [matchKeyValue, hqdata, takeWhile_append_cons hkey2 (by decide),
      dropWhile_append_cons hkey2 (by decide), List.dropWhile_cons_of_neg (by decide)]
    rw [if_neg hkey1]
    simp only [hvtq]
  have hmu : matchKeyValue (key ++ "=" ++ tok) = some (key, tok) := by
    rw [matchKeyValue, hudata, takeWhile_append_cons hkey2 (by decide),
      dropWhile_append_cons hkey2 (by decide), List.dropWhile_cons_of_neg (by decide)]
    rw [if_neg hkey1]
    simp only [hvtu]
  have hjtq : jsTrim (String.mk ('"' :: (tok.data ++ ['"'])))
      = String.mk ('"' :: (tok.data ++ ['"'])) := by
    apply jsTrim_of_nonws
    intro c hc
    rcases List.mem_cons.mp hc with rfl | hc
    · decide
    rcases List.mem_append.mp hc with hc | hc
    · exact hnws c hc
    · simp at hc
      simp [hc]
  have hjtu : jsTrim tok = tok := jsTrim_of_nonws hnws
  have hsq : stripQuotes (String.mk ('"' :: (tok.data ++ ['"']))) = tok := by
    rw [stripQuotes]
    rw [if_pos ?cond]
    case cond =>
      refine ⟨?_, rfl, ?_, ?_⟩
      · have : 1 ≤ tok.data.length := List.length_pos.mpr htok1
        simp only [List.length_cons, List.length_append, List.length_singleton]
        omega
      · rw [show ('"' :: (tok.data ++ ['"'])) = ('"' :: tok.data) ++ ['"'] by simp]
        exact List.getLast?_concat _
      · rw [List.drop_one, List.tail_cons, List.dropLast_concat, List.all_eq_true]
        intro c hc
        simp [hcrlf c hc]
    · rw [List.drop_one, List.tail_cons, List.dropLast_concat]
  have hsu : stripQuotes tok = tok := by
    rw [stripQuotes, if_neg]
    intro hcond
    rcases hcs : tok.data with - | ⟨c, cs⟩
    · exact htok1 hcs
    · have h2 := hcond.2.1
      rw [hcs] at h2
      simp only [List.head?_cons, Option.some.injEq] at h2
      exact (htok2 c (by rw [hcs]; simp)).2 h2
  rw [applyLineKV, applyLineKV, hmq, hmu]
  simp only [hjtq, hjtu, hsq, hsu]

/-- Witness for C9: key `X`, token `FOO`, one-entry table — the quoted and
unquoted forms produce the same step. -/
theorem claim9_witness :
    applyLineKV [("FOO", "12.5")] ("X" ++ "=\"" ++ "FOO" ++ "\"") rawLineInit
      = applyLineKV [("FOO", "12.5")] ("X" ++ "=" ++ "FOO") rawLineInit :=
  (claim9_strip_then_substitute_once [("FOO", "12.5")] "X" "FOO" rawLineInit
    (by decide) (by decide) (by decide) (by decide)).1

end MprToDxf
